import Mathlib

/-!
Verification development for the PluginPlay / SDE module engine.

The C++ sources are shallowly embedded: the small closed universe of
payload types used by the repository's tests (int, string) is modelled by
`Val`, bphash digests are modelled symbolically by `Digest` (the unit
tests pin the three observed digests - the zero digest, the digest of an
empty input and the digest of the value 3 - to be pairwise distinct
strings, which the symbolic constructors reflect), and each component is
translated into an executable Lean definition next to a reference to the
file it comes from.
-/

namespace PluginPlay

/-- Runtime type identifiers (`std::type_info` of the decayed wrapped
type) restricted to the payload types the repository's tests exercise. -/
inductive Ty : Type where
  | tInt : Ty
  | tStr : Ty
deriving DecidableEq, Repr

/-- A wrapped payload value together with its runtime type. -/
inductive Val : Type where
  | vInt : Int → Val
  | vStr : String → Val
deriving DecidableEq, Repr

/-- The runtime type of a payload value (`typeid` of the decayed type). -/
def Val.ty : Val → Ty
  | .vInt _ => .tInt
  | .vStr _ => .tStr

/-- Symbolic bphash digests.  The unit tests of the repository pin three
concrete digests: the all-zero digest `"00000000000000000000000000000000"`
(`zero`), the digest `"cbc357ccb763df2852fee8c4fc7d55f2"` of a
`ModuleInput` holding no value (`emptyVal`), and the digest
`"9a4294b64e60cc012c5ed48db4cd9c48"` of the value `int{3}` (`ofVal`).
The tests show these strings pairwise distinct, which the symbolic
constructors model; `ofPT` is the contribution of a property-type
identifier to a module hash. -/
inductive Digest : Type where
  | zero : Digest
  | emptyVal : Digest
  | ofVal : Val → Digest
  | ofPT : Nat → Digest
deriving DecidableEq, Repr

/-! ## ModuleInput (C2)

The `sde::ModuleInput` implementation is not under `src/`; its observable
behaviour is given by `src/tests/module_input.cpp` and spec section 4.2. -/

/-- The state of an `sde::ModuleInput`: a declared type (unset on default
construction), an optional stored value, and the `optional` and
`transparent` flags, all as exercised by `src/tests/module_input.cpp`. -/
structure ModuleInput : Type where
  declaredType : Option Ty := none
  value : Option Val := none
  isOptional : Bool := false
  isTransparent : Bool := false
deriving DecidableEq, Repr

/-- `ModuleInput::set_type<T>()`: records the declared type
(`src/tests/module_input.cpp:121`). -/
def ModuleInput.setType (i : ModuleInput) (t : Ty) : ModuleInput :=
  { i with declaredType := some t }

/-- `ModuleInput::change(v)`: fails (`none`) when no type is declared or
when the decayed type of `v` is not the declared type, otherwise stores
the value (`src/tests/module_input.cpp:157`, spec section 4.2). -/
def ModuleInput.change (i : ModuleInput) (v : Val) : Option ModuleInput :=
  match i.declaredType with
  | none => none
  | some t => if v.ty = t then some { i with value := some v } else none

/-- Modelled from the spec: the body of `sde::ModuleInput::hash` is not
under `src/`; the branch structure follows spec section 4.2 ("emits the
hash of the value when opaque and has_value") and the three digests are
pinned by the unit test `src/tests/module_input.cpp:104-119`: a
transparent input hashes to the zero digest, an input holding a value
hashes to the digest of that value, and an input holding no value hashes
to the fixed digest of the empty value holder. -/
def ModuleInput.hash (i : ModuleInput) : Digest :=
  if i.isTransparent then Digest.zero
  else
    match i.value with
    | some v => Digest.ofVal v
    | none => Digest.emptyVal

/-- A default-constructed input whose type was set to `int` and which
holds no value: the "Empty" section of the hash unit test. -/
def emptyIntInput : ModuleInput := ModuleInput.setType {} Ty.tInt

/-- Claim C2 (counterexample): the claim asserts that an input holding no
value hashes to the all-zero digest; but the empty (type-set, non
transparent, valueless) input hashes to the fixed empty-value digest
`"cbc357ccb763df2852fee8c4fc7d55f2"`, which the unit test pins to be a
different string than `"00000000000000000000000000000000"`. -/
theorem C2_empty_hash_not_zero :
    emptyIntInput.isTransparent = false ∧ emptyIntInput.value = none ∧
    emptyIntInput.hash = Digest.emptyVal ∧ emptyIntInput.hash ≠ Digest.zero := by
  decide

/-- Claim C2 (amended): hashing a `ModuleInput` emits the hash of the
stored value when the input is not transparent and holds a value, the
zero digest when the input is transparent, and the fixed digest of the
empty value holder - distinct from the zero digest - when a non
transparent input holds no value. -/
theorem C2_input_hash (i : ModuleInput) :
    (i.isTransparent = true → i.hash = Digest.zero) ∧
    (i.isTransparent = false → ∀ v, i.value = some v → i.hash = Digest.ofVal v) ∧
    (i.isTransparent = false → i.value = none →
      i.hash = Digest.emptyVal ∧ i.hash ≠ Digest.zero) := by
  refine ⟨fun ht => ?_, fun ht v hv => ?_, fun ht hv => ?_⟩
  · simp [ModuleInput.hash, ht]
  · simp [ModuleInput.hash, ht, hv]
  · simp [ModuleInput.hash, ht, hv]

/-- Claim C2 (witness for the amended theorem): evaluated on a
transparent input, on an input holding `int{3}` and on the empty input. -/
theorem C2_input_hash_witness :
    ({ emptyIntInput with isTransparent := true } : ModuleInput).hash = Digest.zero ∧
    ({ emptyIntInput with value := some (Val.vInt 3) } : ModuleInput).hash
      = Digest.ofVal (Val.vInt 3) ∧
    emptyIntInput.hash = Digest.emptyVal ∧ emptyIntInput.hash ≠ Digest.zero :=
  ⟨(C2_input_hash _).1 rfl,
   (C2_input_hash _).2.1 rfl _ rfl,
   (C2_input_hash _).2.2 rfl rfl⟩

/-! ## AnyField equality (C3)

`AnyFieldBase::are_equal` is implemented by symmetric double dispatch
(`src/include/pluginplay/any/detail_/any_field_base.hpp:138-140`); the
derived `AnyFieldWrapper` is not under `src/`, and its `are_equal_` is
modelled from the base class's own documentation (lines 113-135 and
142-156): one direction succeeds exactly when the other instance downcasts
to the same most-derived wrapper - same decayed type *and* same storage
discipline - and the wrapped states compare equal, while `value_equal`
compares the wrapped values with `T::operator==` regardless of storage.
The earlier-generation `sde::detail_::SDEAnyWrapper::are_equal_`
(`src/include/sde/detail_/sde_any_wrapper.hpp:481-489`) is translated as
well: there the deduction guide strips references and `std::any` decays
the value, so only the decayed type and value take part. -/

/-- The four storage disciplines of spec section 4.1, encoded in the
most-derived wrapper type of the `AnyField` hierarchy. -/
inductive Storage : Type where
  | ownedMut : Storage
  | ownedConst : Storage
  | refMut : Storage
  | refConst : Storage
deriving DecidableEq, Repr

/-- The state of an `AnyFieldWrapper`: the wrapped value together with
the storage discipline encoded in the most-derived type. -/
structure FieldWrapper : Type where
  storage : Storage
  val : Val
deriving DecidableEq, Repr

/-- `AnyFieldBase::type()`: the RTTI of the decayed wrapped type
(`any_field_base.hpp:60`, "typeid(T) == typeid(std::decay_t<T>)"). -/
def FieldWrapper.rtti (w : FieldWrapper) : Ty := w.val.ty

/-- Modelled from the spec: one direction of the derived wrapper's
`are_equal_` - the downcast to the most-derived wrapper of `this`
succeeds (same decayed type and storage discipline) and the wrapped
states are equal (`any_field_base.hpp:113-135`). -/
def areEqualHalf (a b : FieldWrapper) : Bool :=
  a.storage = b.storage && a.val = b.val

/-- `AnyFieldBase::are_equal`: the symmetric double dispatch
`are_equal_(rhs) && rhs.are_equal_(*this)` of `any_field_base.hpp:138`. -/
def areEqual (a b : FieldWrapper) : Bool :=
  areEqualHalf a b && areEqualHalf b a

/-- `AnyFieldBase::value_equal`: compares just the wrapped values with
`T::operator==`, returning false when the decayed types differ
(`any_field_base.hpp:142-161`). -/
def valueEqual (a b : FieldWrapper) : Bool := a.val = b.val

/-- The state of an `sde::detail_::SDEAnyWrapper`: the deduction guide
(`sde_any_wrapper.hpp:461`) strips references and the `std::any` member
stores the decayed value, so no storage discipline survives. -/
structure SDEAny : Type where
  val : Val
deriving DecidableEq, Repr

/-- `SDEAnyWrapper::are_equal_` (`sde_any_wrapper.hpp:481-489`):
`value_() == rhs.cast<const T&>()`, false when the cast fails because
`rhs` holds a different decayed type. -/
def sdeAreEqual (a b : SDEAny) : Bool := a.val = b.val

/-- Claim C3 (counterexample): two wrappers around the value `int{3}`,
one owning it mutably, one holding it by const reference, have matching
runtime types and equal values yet `are_equal` reports them different -
the comparison does depend on how the value is stored. -/
theorem C3_are_equal_storage_sensitive :
    (FieldWrapper.mk Storage.ownedMut (Val.vInt 3)).rtti
      = (FieldWrapper.mk Storage.refConst (Val.vInt 3)).rtti ∧
    (FieldWrapper.mk Storage.ownedMut (Val.vInt 3)).val
      = (FieldWrapper.mk Storage.refConst (Val.vInt 3)).val ∧
    areEqual (FieldWrapper.mk Storage.ownedMut (Val.vInt 3))
      (FieldWrapper.mk Storage.refConst (Val.vInt 3)) = false := by
  decide

/-- Claim C3 (amended): `are_equal` is true exactly when the wrapped
runtime types match, the wrapped values compare equal *and* the storage
disciplines coincide; the storage-independent comparison of the claim is
`value_equal`, true exactly when the values compare equal, and likewise
the earlier-generation `SDEAnyWrapper` equality, where the storage
discipline is not even part of the state. -/
theorem C3_equality_characterisation (a b : FieldWrapper) (x y : SDEAny) :
    (areEqual a b = true ↔ a.rtti = b.rtti ∧ a.val = b.val ∧ a.storage = b.storage) ∧
    (valueEqual a b = true ↔ a.val = b.val) ∧
    (sdeAreEqual x y = true ↔ x.val = y.val) := by
  refine ⟨?_, ?_, ?_⟩
  · constructor
    · intro h
      have h1 := (Bool.and_eq_true _ _).mp h
      have h2 := (Bool.and_eq_true _ _).mp h1.1
      have hs : a.storage = b.storage := by
        exact of_decide_eq_true h2.1
      have hv : a.val = b.val := by
        exact of_decide_eq_true h2.2
      exact ⟨by rw [FieldWrapper.rtti, FieldWrapper.rtti, hv], hv, hs⟩
    · rintro ⟨-, hv, hs⟩
      simp [areEqual, areEqualHalf, hv, hs]
  · simp [valueEqual]
  · simp [sdeAreEqual]

/-! ## Lambda module hashing (C9)

`pluginplay::LambdaModule` is not under `src/`; the unit test
`src/tests/pluginplay/detail_/lambda_module.cpp:35-41` pins that two
lambda modules built for the same property type from different callables
hash identically, and spec section 9(b) records that no caller-provided
identity token is mixed into the hash. -/

/-- Modelled from the spec: the state of a lambda module - the identifier
of the property type it was created for and the wrapped callable
(`make_lambda<PT>(fn)`); the `LambdaModule` implementation is absent from
`src/`. -/
structure LambdaModule : Type where
  pt : Nat
  fn : Int → Int

/-- `pluginplay::make_lambda<PT>(fn)`. -/
def makeLambda (pt : Nat) (f : Int → Int) : LambdaModule := ⟨pt, f⟩

/-- Modelled from the spec: `pluginplay::hash_objects` on a lambda module
hashes only the hashable module state - the property type - and not the
wrapped callable, the incomplete unique-hash strategy recorded in spec
section 9(b) and pinned by `lambda_module.cpp:37-41`. -/
def LambdaModule.hashObjects (m : LambdaModule) : Digest := Digest.ofPT m.pt

/-- Claim C9: two lambda modules created for the same property type hash
identically whatever callables they wrap - the module hash depends only
on the property type. -/
theorem C9_lambda_hash_ignores_callable (pt : Nat) (f g : Int → Int) :
    (makeLambda pt f).hashObjects = (makeLambda pt g).hashObjects := rfl

/-! ## SDE Cache comparisons (C7)

Translated from `src/SDE/detail_/Cache.hpp`.  The `_results` member is a
`std::map<const std::string, std::shared_ptr<SDEAny>>`; the shared
pointers compare by pointer identity, modelled here by a `Nat` identifier
per allocation, and the map by its sorted association list. -/

/-- The state of an `SDE::Cache`: the `_results` map from hash string to
the identity of the stored `shared_ptr<SDEAny>` (`Cache.hpp:187`). -/
structure Cache : Type where
  results : List (String × Nat)
deriving DecidableEq, Repr

/-- `Cache::operator==` (`Cache.hpp:143-148`): equal sizes and every hash
key of the left map present in the right one - key-set equality, the
stored values play no role. -/
def Cache.eqOp (a b : Cache) : Bool :=
  if a.results.length ≠ b.results.length then false
  else a.results.all fun p => b.results.any fun q => q.1 = p.1

/-- `Cache::operator!=` (`Cache.hpp:151-153`): despite its own comment
"Negates operator==", it is implemented as `_results != ref._results`,
element-wise map inequality which compares the stored shared pointers by
identity. -/
def Cache.neOp (a b : Cache) : Bool := a.results ≠ b.results

/-- Claim C7 (code bug, evaluation at the failing input): two caches
holding the same single hash key `"a"` whose entries were allocated
independently (distinct shared-pointer identities, here 0 and 1) compare
equal under `operator==` - key sets match - while `operator!=` also
returns true, contradicting both the claim and the code's own comment
that `operator!=` negates `operator==`. -/
theorem C7_neq_not_negation_of_eq :
    Cache.eqOp (Cache.mk [("a", 0)]) (Cache.mk [("a", 1)]) = true ∧
    Cache.neOp (Cache.mk [("a", 0)]) (Cache.mk [("a", 1)]) = true := by
  decide

/-! ## Two-tier Native database (C6)

The `pluginplay::cache::database::Native` implementation is not under
`src/`; the model below follows the spec's two-tier design (section 4.7)
with the behaviour pinned by `src/tests/pluginplay/cache/database/native.cpp`:
`count` consults only the primary map (lines 66-71: after `dump()` the
key is no longer counted even though the backup holds it), `dump` flushes
to the backup - when one is present - before evicting the primary map
(lines 70-73), and `at` falls back to the backup. -/

/-- Modelled from the spec: the state of a `Native<Key, Value>` database -
the primary in-memory map and the optional secondary backing store
(`has_backup` in the unit test), association lists with first-match
lookup. -/
structure Native (K V : Type) : Type where
  map : List (K × V)
  backup : Option (List (K × V))

/-- First-match association-list lookup, the `std::map` find. -/
def alistFind {K V : Type} [DecidableEq K] (k : K) : List (K × V) → Option V
  | [] => none
  | p :: rest => if p.1 = k then some p.2 else alistFind k rest

/-- `Native::count(k)`: whether the key is present; pinned by the unit
test to consult only the primary map. -/
def Native.count {K V : Type} [DecidableEq K] (db : Native K V) (k : K) : Bool :=
  (alistFind k db.map).isSome

/-- Modelled from the spec: `Native::backup()` flushes the primary map to
the secondary backing store when one is present (entries of the primary
map take precedence over older backed copies). -/
def Native.backupOp {K V : Type} (db : Native K V) : Native K V :=
  match db.backup with
  | none => db
  | some b => { db with backup := some (db.map ++ b) }

/-- `Native::dump()`: flushes to the backup - the unit test shows the
backed store holding the key after a bare `dump()` - then evicts the
primary map. -/
def Native.dump {K V : Type} (db : Native K V) : Native K V :=
  { db.backupOp with map := [] }

/-- Modelled from the spec: `Native::at(k)` consults the primary map
first and then the secondary backing store. -/
def Native.atOp {K V : Type} [DecidableEq K] (db : Native K V) (k : K) : Option V :=
  match alistFind k db.map with
  | some v => some v
  | none => db.backup.bind (alistFind k)

/-- The database of the unit test: one key in the primary map and an
empty secondary backing store. -/
def db6 : Native Nat Nat := ⟨[(1, 2)], some []⟩

/-- Claim C6 (counterexample): the key 1 is present before, yet after
`backup()` then `dump()` the cache's `count` reports it absent - exactly
what `native.cpp:66-73` requires (`REQUIRE_FALSE(has_backup.count(...))`
after `dump()`). -/
theorem C6_count_zero_after_dump :
    db6.count 1 = true ∧ (db6.backupOp.dump).count 1 = false := by
  decide

/-- A key found in the left part of an appended association list is
found, with the same value, in the whole list. -/
theorem alistFind_append_left {K V : Type} [DecidableEq K] (k : K) (v : V)
    (l m : List (K × V)) (h : alistFind k l = some v) :
    alistFind k (l ++ m) = some v := by
  induction l with
  | nil => simp [alistFind] at h
  | cons p rest ih =>
    by_cases hp : p.1 = k
    · simpa [alistFind, hp] using h
    · rw [alistFind] at h
      rw [List.cons_append, alistFind]
      simp only [hp, if_false] at h ⊢
      exact ih h

/-- Claim C6 (amended): after `backup()` then `dump()`, every key that
was present in the primary map is no longer counted by the cache - its
`count` is 0, not 1 - but it is not lost: the secondary backing store
still holds its value and `at` still retrieves it through the backup. -/
theorem C6_backup_dump_persistence {K V : Type} [DecidableEq K]
    (db : Native K V) (b : List (K × V)) (k : K) (v : V)
    (hb : db.backup = some b) (hk : alistFind k db.map = some v) :
    (db.backupOp.dump).count k = false ∧
    (db.backupOp.dump).atOp k = some v := by
  have hflush : db.backupOp = Native.mk db.map (some (db.map ++ b)) := by
    simp [Native.backupOp, hb]
  have hdump : db.backupOp.dump
      = Native.mk [] (some (db.map ++ (db.map ++ b))) := by
    rw [hflush]
    simp [Native.dump, Native.backupOp]
  refine ⟨?_, ?_⟩
  · simp [hdump, Native.count, alistFind]
  · have hfind : alistFind k (db.map ++ (db.map ++ b)) = some v :=
      alistFind_append_left k v db.map _ hk
    simp [hdump, Native.atOp, alistFind, hfind]

/-- Claim C6 (witness for the amended theorem): evaluated on the unit
test's database with key 1 and value 2. -/
theorem C6_backup_dump_persistence_witness :
    (db6.backupOp.dump).count 1 = false ∧ (db6.backupOp.dump).atOp 1 = some 2 :=
  C6_backup_dump_persistence db6 [] 1 2 rfl rfl

/-! ## PropertyType wrapping and unwrapping (C4, C5)

Translated from `src/sde/property_type.hpp`.  The declared field list of
a property type (the ordered `FieldTuple` of keyword/declared-type pairs)
drives both `wrap_inputs` and `unwrap_inputs`; the map-like container is
modelled as a function from keyword to field descriptor. -/

/-- The map-like container of field descriptors (`sde::type::input_map`),
keyword to descriptor. -/
abbrev InputMap : Type := String → Option ModuleInput

/-- The ordered field declarations of a property type: the keywords and
declared types in API order (`FieldTuple`). -/
abbrev Fields : Type := List (String × Ty)

/-- `PT::inputs()`: the freshly declared input map - every declared field
present with its declared type and no value yet. -/
def inputsOf (flds : Fields) : InputMap := fun k =>
  (flds.find? fun kt => kt.1 == k).map fun kt => ModuleInput.setType {} kt.2

/-- `rv.at(key).change(value)` as used by `wrap_guts_`
(`src/sde/property_type.hpp:254-255`): `at` fails when the key is absent
from the map and `change` when the value cannot convert to the declared
type. -/
def changeAt (m : InputMap) (k : String) (v : Val) : Option InputMap :=
  match m k with
  | none => none
  | some i => (i.change v).map fun i' => fun k' => if k' = k then some i' else m k'

/-- `wrap_guts_` (`src/sde/property_type.hpp:246-259`): recursion over
the positional arguments, pairing the `ArgI`-th argument with the
`ArgI`-th declared field and calling `rv.at(key).change(arg)`.  `none`
models the compile-time rejections: the out-of-range `std::tuple_element`
when more arguments than declared fields are passed, and the
`static_assert` when an argument cannot convert to the declared type.
When the arguments run out any remaining fields are left untouched -
there is no arity check (`wrap_` just returns `rv`). -/
def wrapGuts : Fields → InputMap → List Val → Option InputMap
  | _, m, [] => some m
  | [], _, _ :: _ => none
  | (k, t) :: flds, m, v :: args =>
    if v.ty = t then
      match changeAt m k v with
      | some m' => wrapGuts flds m' args
      | none => none
    else none

/-- `PT::wrap_inputs(rv, args...)` (`src/sde/property_type.hpp:203-207`). -/
def wrapInputs (flds : Fields) (m : InputMap) (args : List Val) : Option InputMap :=
  wrapGuts flds m args

/-- `rv.at(key).template value<type>()` as used by `unwrap_guts_`: the
stored value retrieved at the declared type, `none` when the key is
absent, holds no value, or holds a value of another type. -/
def valueAt (m : InputMap) (k : String) (t : Ty) : Option Val :=
  match m k with
  | none => none
  | some i =>
    match i.value with
    | some v => if v.ty = t then some v else none
    | none => none

/-- `unwrap_guts_` (`src/sde/property_type.hpp:277-292`): reads the
declared keys in order, casting each stored value to its declared type,
and returns the positional tuple. -/
def unwrapFields : Fields → InputMap → Option (List Val)
  | [], _ => some []
  | (k, t) :: rest, m =>
    match valueAt m k t, unwrapFields rest m with
    | some v, some vs => some (v :: vs)
    | _, _ => none

/-- `PT::unwrap_inputs(rv)` (`src/sde/property_type.hpp:215-229`). -/
def unwrapInputs (flds : Fields) (m : InputMap) : Option (List Val) :=
  unwrapFields flds m

/-- In a field list with pairwise distinct keywords, `find?` on a
member's keyword returns exactly that member. -/
theorem find_self_of_nodup (flds : Fields) (kt : String × Ty)
    (hnd : (flds.map Prod.fst).Nodup) (hmem : kt ∈ flds) :
    (flds.find? fun x => x.1 == kt.1) = some kt := by
  induction flds with
  | nil => simp at hmem
  | cons p rest ih =>
    rcases List.mem_cons.mp hmem with heq | htail
    · subst heq
      simp [List.find?]
    · have hnd' := hnd
      rw [List.map_cons, List.nodup_cons] at hnd'
      have hne : ¬(p.1 == kt.1) = true := by
        intro hcontra
        have : p.1 = kt.1 := by simpa using hcontra
        exact hnd'.1 (this ▸ List.mem_map_of_mem Prod.fst htail)
      rw [List.find?]
      simp only [hne]
      exact ih hnd'.2 htail

/-- Every declared field is present in `PT::inputs()` with its declared
type (and no value). -/
theorem inputsOf_spec (flds : Fields) (hnd : (flds.map Prod.fst).Nodup) :
    ∀ kt ∈ flds, ∃ i, inputsOf flds kt.1 = some i ∧
      i.declaredType = some kt.2 ∧ i.value = none := by
  intro kt hkt
  refine ⟨ModuleInput.setType {} kt.2, ?_, rfl, rfl⟩
  unfold inputsOf
  rw [find_self_of_nodup flds kt hnd hkt]
  rfl

/-- Two pointwise properties of the same two lists combine. -/
theorem forall₂_conj {α β : Type} {R S : α → β → Prop} :
    ∀ {l₁ : List α} {l₂ : List β}, List.Forall₂ R l₁ l₂ →
      List.Forall₂ S l₁ l₂ → List.Forall₂ (fun a b => R a b ∧ S a b) l₁ l₂
  | _, _, .nil, .nil => .nil
  | _, _, .cons hr hrs, .cons hs hss => .cons ⟨hr, hs⟩ (forall₂_conj hrs hss)

/-- Behaviour of `wrap_guts_` when one argument of the declared type is
supplied for each declared field: it succeeds, every declared field ends
up holding its positional argument, and keys outside the declared fields
are untouched. -/
theorem wrapGuts_spec (args : List Val) (flds : Fields) (m : InputMap)
    (hR : List.Forall₂ (fun (v : Val) (kt : String × Ty) => v.ty = kt.2) args flds)
    (hnd : (flds.map Prod.fst).Nodup)
    (hm : ∀ kt ∈ flds, ∃ i, m kt.1 = some i ∧ i.declaredType = some kt.2) :
    ∃ m', wrapGuts flds m args = some m' ∧
      List.Forall₂ (fun (v : Val) (kt : String × Ty) =>
        ∃ i, m' kt.1 = some i ∧ i.value = some v) args flds ∧
      ∀ k, k ∉ flds.map Prod.fst → m' k = m k := by
  induction hR generalizing m with
  | nil => exact ⟨m, rfl, .nil, fun _ _ => rfl⟩
  | @cons v kt args' flds' hv _ ih =>
    obtain ⟨i, hmk, hdt⟩ := hm kt (List.mem_cons_self kt flds')
    have hich : i.change v = some { i with value := some v } := by
      rw [ModuleInput.change, hdt]
      simp [hv]
    have hnd' := hnd
    rw [List.map_cons, List.nodup_cons] at hnd'
    set i₁ : ModuleInput := { i with value := some v } with hi₁
    set m₁ : InputMap := fun k' => if k' = kt.1 then some i₁ else m k' with hm₁
    have hca : changeAt m kt.1 v = some m₁ := by
      simp only [changeAt, hmk, hich, Option.map_some']
    have hm' : ∀ kt' ∈ flds', ∃ i', m₁ kt'.1 = some i' ∧
        i'.declaredType = some kt'.2 := by
      intro kt' hkt'
      obtain ⟨i', hm'', hdt'⟩ := hm kt' (List.mem_cons_of_mem kt hkt')
      refine ⟨i', ?_, hdt'⟩
      have hne : kt'.1 ≠ kt.1 := by
        intro hcontra
        exact hnd'.1 (hcontra ▸ List.mem_map_of_mem Prod.fst hkt')
      rw [hm₁]
      simp [hne, hm'']
    obtain ⟨mf, hwrap, hset, hout⟩ := ih m₁ hnd'.2 hm'
    have hkt1 : kt.1 ∉ flds'.map Prod.fst := hnd'.1
    refine ⟨mf, ?_, ?_, ?_⟩
    · show wrapGuts (kt :: flds') m (v :: args') = some mf
      rw [show kt = (kt.1, kt.2) from rfl] at hca ⊢
      rw [wrapGuts]
      simp only [hv, if_true, hca]
      exact hwrap
    · refine .cons ⟨i₁, ?_, rfl⟩ hset
      rw [hout kt.1 hkt1, hm₁]
      simp
    · intro k hk
      rw [List.map_cons, List.mem_cons] at hk
      push_neg at hk
      rw [hout k hk.2, hm₁]
      simp [hk.1]

/-- Behaviour of `unwrap_guts_` on a map in which every declared field
holds a value of its declared type: the positional values come out in
declared order. -/
theorem unwrapFields_spec (args : List Val) (flds : Fields) (m : InputMap)
    (h : List.Forall₂ (fun (v : Val) (kt : String × Ty) =>
      (∃ i, m kt.1 = some i ∧ i.value = some v) ∧ v.ty = kt.2) args flds) :
    unwrapFields flds m = some args := by
  induction h with
  | nil => rfl
  | @cons v kt args' flds' hv htail ih =>
    obtain ⟨⟨i, hmk, hval⟩, hty⟩ := hv
    have hva : valueAt m kt.1 kt.2 = some v := by
      simp [valueAt, hmk, hval, hty]
    show unwrapFields (kt :: flds') m = some (v :: args')
    rw [show kt = (kt.1, kt.2) from rfl]
    simp [unwrapFields, hva, ih]

/-- Claim C4: for a property type with declared fields `flds` (keys
pairwise distinct, as spec invariant P1 requires) and positional
arguments of the declared types, unwrapping the map produced by wrapping
the arguments into `PT::inputs()` returns exactly the original values in
declared order. -/
theorem C4_wrap_unwrap_roundtrip (flds : Fields) (args : List Val)
    (hR : List.Forall₂ (fun (v : Val) (kt : String × Ty) => v.ty = kt.2) args flds)
    (hnd : (flds.map Prod.fst).Nodup) :
    (wrapInputs flds (inputsOf flds) args).bind (unwrapInputs flds) = some args := by
  have hm : ∀ kt ∈ flds, ∃ i, inputsOf flds kt.1 = some i ∧
      i.declaredType = some kt.2 := by
    intro kt hkt
    obtain ⟨i, h1, h2, -⟩ := inputsOf_spec flds hnd kt hkt
    exact ⟨i, h1, h2⟩
  obtain ⟨m', hwrap, hset, -⟩ := wrapGuts_spec args flds (inputsOf flds) hR hnd hm
  rw [wrapInputs, hwrap]
  exact unwrapFields_spec args flds m' (forall₂_conj hset hR)

/-- The two declared integer fields used for the concrete evaluations. -/
def twoIntFields : Fields := [("Option 1", Ty.tInt), ("Option 2", Ty.tInt)]

/-- Claim C4 (witness): evaluated on a two-field property type and the
arguments `int{3}`, `int{7}`. -/
theorem C4_wrap_unwrap_roundtrip_witness :
    (wrapInputs twoIntFields (inputsOf twoIntFields) [Val.vInt 3, Val.vInt 7]).bind
      (unwrapInputs twoIntFields) = some [Val.vInt 3, Val.vInt 7] :=
  C4_wrap_unwrap_roundtrip twoIntFields [Val.vInt 3, Val.vInt 7]
    (.cons rfl (.cons rfl .nil)) (by decide)

/-- Claim C5 (counterexample): calling `wrap_inputs` on a two-field
property type with a single argument is not rejected with an arity error:
it succeeds, stores the argument in the first field and leaves the second
field without a value - exactly the silent partial wrap the claim rules
out. -/
theorem C5_missing_arity_check :
    (wrapInputs twoIntFields (inputsOf twoIntFields) [Val.vInt 5]).isSome = true ∧
    ((wrapInputs twoIntFields (inputsOf twoIntFields) [Val.vInt 5]).bind
      fun m => m "Option 1").bind ModuleInput.value = some (Val.vInt 5) ∧
    ((wrapInputs twoIntFields (inputsOf twoIntFields) [Val.vInt 5]).bind
      fun m => m "Option 2").bind ModuleInput.value = none := by
  decide

/-- More positional arguments than declared fields never wrap: the
`ArgI`-th `std::tuple_element` does not exist once the fields run out. -/
theorem wrapGuts_none_of_too_many (flds : Fields) (m : InputMap) (args : List Val)
    (h : flds.length < args.length) : wrapGuts flds m args = none := by
  induction flds generalizing m args with
  | nil =>
    match args with
    | [] => simp at h
    | v :: args' => rfl
  | cons kt rest ih =>
    match args with
    | [] => simp at h
    | v :: args' =>
      rw [show kt = (kt.1, kt.2) from rfl, wrapGuts]
      by_cases hv : v.ty = kt.2
      · simp only [hv, if_true]
        match changeAt m kt.1 v with
        | some m₁ =>
          exact ih m₁ args' (by simpa using h)
        | none => rfl
      · simp [hv]

/-- `wrap_guts_` only ever inspects the first `sizeof...(args)` declared
fields. -/
theorem wrapGuts_take (flds : Fields) (m : InputMap) (args : List Val) :
    wrapGuts flds m args = wrapGuts (flds.take args.length) m args := by
  induction args generalizing flds m with
  | nil =>
    match flds with
    | [] => rfl
    | kt :: rest => rfl
  | cons v args' ih =>
    match flds with
    | [] => rfl
    | (k, t) :: rest =>
      rw [List.length_cons, List.take_succ_cons, wrapGuts, wrapGuts]
      by_cases hv : v.ty = t
      · simp only [hv, if_true]
        match changeAt m k v with
        | some m₁ => exact ih rest m₁
        | none => rfl
      · simp [hv]

/-- Claim C5 (amended): `wrap_inputs` rejects a call with more positional
arguments than declared fields (and, by construction of `wrapGuts`, an
argument that cannot convert to its declared type), but a call with fewer
arguments than fields is *not* rejected: it succeeds, wraps only the
first `sizeof...(args)` declared fields with the supplied values, and
leaves every other key of the map - including the remaining declared
fields - unchanged. -/
theorem C5_wrap_arity_behaviour (flds : Fields) (m : InputMap) (args : List Val)
    (hnd : (flds.map Prod.fst).Nodup)
    (hm : ∀ kt ∈ flds, ∃ i, m kt.1 = some i ∧ i.declaredType = some kt.2) :
    (flds.length < args.length → wrapInputs flds m args = none) ∧
    (List.Forall₂ (fun (v : Val) (kt : String × Ty) => v.ty = kt.2) args
        (flds.take args.length) →
      ∃ m', wrapInputs flds m args = some m' ∧
        List.Forall₂ (fun (v : Val) (kt : String × Ty) =>
          ∃ i, m' kt.1 = some i ∧ i.value = some v) args (flds.take args.length) ∧
        ∀ k, k ∉ (flds.take args.length).map Prod.fst → m' k = m k) := by
  constructor
  · exact fun h => wrapGuts_none_of_too_many flds m args h
  · intro hR
    have hnd' : ((flds.take args.length).map Prod.fst).Nodup := by
      rw [List.map_take]
      exact hnd.sublist (List.take_sublist _ _)
    have hm' : ∀ kt ∈ flds.take args.length, ∃ i, m kt.1 = some i ∧
        i.declaredType = some kt.2 :=
      fun kt hkt => hm kt (List.take_subset _ _ hkt)
    obtain ⟨m', hwrap, hset, hout⟩ :=
      wrapGuts_spec args (flds.take args.length) m hR hnd' hm'
    exact ⟨m', by rw [wrapInputs, wrapGuts_take, hwrap], hset, hout⟩

/-- Claim C5 (witness for the amended theorem): on the two-field property
type with one argument, the wrap succeeds. -/
theorem C5_wrap_arity_behaviour_witness :
    (wrapInputs twoIntFields (inputsOf twoIntFields) [Val.vInt 5]).isSome = true := by
  obtain ⟨m', hwrap, -, -⟩ :=
    (C5_wrap_arity_behaviour twoIntFields (inputsOf twoIntFields) [Val.vInt 5]
      (by decide)
      (fun kt hkt =>
        (inputsOf_spec twoIntFields (by decide) kt hkt).elim
          fun i h => ⟨i, h.1, h.2.1⟩)).2
      (.cons rfl .nil)
  rw [hwrap]
  rfl

/-! ## ModulePIMPL memoization (C1)

`sde::detail_::ModulePIMPL` is not under `src/`; the model below follows
the `run` contract of spec section 4.6 (merge/validate/lock, consult the
per-type cache under the context hash when memoization is on, otherwise
call `base.run_` and store) with the cache observables pinned by
`src/tests/pluginplay/detail_/module_pimpl.cpp:300-325` (`is_cached`,
`reset_cache`).  The context hash of spec step 4 is injective in the
(fixed) implementation and merged input map, so the cache is keyed
directly by the merged input map; the "run_ call count" of spec scenario
2 is carried in the state. -/

/-- A merged, ready call-input map: keyword-value pairs. -/
abbrev InMap : Type := List (String × Val)

/-- A result map: keyword-value pairs. -/
abbrev ResMap : Type := List (String × Val)

/-- Modelled from the spec: the `ModulePIMPL` state - the implementation
hook `base.run_`, the shared per-type cache (absent when the module was
made without one), the memoization and locked flags, and the number of
times `base.run_` has been invoked. -/
structure ModulePIMPL : Type where
  runImpl : InMap → ResMap
  cache : Option (List (InMap × ResMap))
  memoizable : Bool
  locked : Bool
  runCount : Nat

/-- Cache lookup under the context key. -/
def lookupCache (c : List (InMap × ResMap)) (inp : InMap) : Option ResMap :=
  (c.find? fun p => decide (p.1 = inp)).map Prod.snd

/-- `ModulePIMPL::is_cached(inputs)`: false without a cache, otherwise
whether the context key is present
(`module_pimpl.cpp:300-313`). -/
def ModulePIMPL.isCached (m : ModulePIMPL) (inp : InMap) : Bool :=
  match m.cache with
  | none => false
  | some c => (lookupCache c inp).isSome

/-- Modelled from the spec: `ModulePIMPL::run` steps 3-6 of spec section
4.6 - lock, then with memoization on and a cache attached return the
entry stored under the context key when present, otherwise invoke
`base.run_`, store the result under the key and return it; without a
cache or with memoization off every call invokes `base.run_`. -/
def ModulePIMPL.run (m : ModulePIMPL) (inp : InMap) : ResMap × ModulePIMPL :=
  match m.cache with
  | some c =>
    if m.memoizable then
      match lookupCache c inp with
      | some r => (r, { m with locked := true })
      | none =>
        (m.runImpl inp,
         { m with locked := true,
                  cache := some ((inp, m.runImpl inp) :: c),
                  runCount := m.runCount + 1 })
    else
      (m.runImpl inp, { m with locked := true, runCount := m.runCount + 1 })
  | none =>
    (m.runImpl inp, { m with locked := true, runCount := m.runCount + 1 })

/-- Claim C1: for a memoizable module with a cache and a context not yet
cached, the first `run` invokes `base.run_` once and caches the result
under the context key (`is_cached` becomes true), and a second `run` with
the identical input map returns the cached, equal result map without
invoking `base.run_` again - two successive runs invoke `base.run_`
exactly once. -/
theorem C1_memoization_runs_base_once (m : ModulePIMPL) (inp : InMap)
    (hmem : m.memoizable = true) (hc : m.cache.isSome = true)
    (hfresh : m.isCached inp = false) :
    ((m.run inp).2).runCount = m.runCount + 1 ∧
    ((m.run inp).2).isCached inp = true ∧
    (((m.run inp).2).run inp).1 = (m.run inp).1 ∧
    ((((m.run inp).2).run inp).2).runCount = m.runCount + 1 := by
  obtain ⟨c, hcc⟩ : ∃ c, m.cache = some c := by
    cases hcase : m.cache with
    | none => rw [hcase] at hc; simp at hc
    | some c => exact ⟨c, rfl⟩
  have hlook : lookupCache c inp = none := by
    have h' : (lookupCache c inp).isSome = false := by
      have h'' := hfresh
      rw [ModulePIMPL.isCached, hcc] at h''
      exact h''
    cases hl : lookupCache c inp with
    | none => rfl
    | some r => rw [hl] at h'; simp at h'
  have h1 : m.run inp = (m.runImpl inp,
      { m with locked := true,
               cache := some ((inp, m.runImpl inp) :: c),
               runCount := m.runCount + 1 }) := by
    rw [ModulePIMPL.run, hcc]
    simp [hmem, hlook]
  have hhit : lookupCache ((inp, m.runImpl inp) :: c) inp
      = some (m.runImpl inp) := by
    simp [lookupCache, List.find?]
  refine ⟨?_, ?_, ?_, ?_⟩
  · rw [h1]
  · rw [h1, ModulePIMPL.isCached]
    simp [hhit]
  · rw [h1]
    show (ModulePIMPL.run _ inp).1 = m.runImpl inp
    rw [ModulePIMPL.run]
    simp [hmem, hhit]
  · rw [h1]
    show ((ModulePIMPL.run _ inp).2).runCount = m.runCount + 1
    rw [ModulePIMPL.run]
    simp [hmem, hhit]

/-- The memoizable module of the `is_cached` unit test: one invocation of
`base.run_` yields the result map `{"Result 1" -> 4}`; fresh empty
cache. -/
def realDealPimpl : ModulePIMPL :=
  { runImpl := fun _ => [("Result 1", Val.vInt 4)]
    cache := some []
    memoizable := true
    locked := false
    runCount := 0 }

/-- The call inputs of the `is_cached` unit test: `Option 1` set to 1. -/
def option1Input : InMap := [("Option 1", Val.vInt 1)]

/-- Claim C1 (witness): evaluated on the `RealDeal` module with input
`Option 1 = 1`. -/
theorem C1_memoization_runs_base_once_witness :
    realDealPimpl.memoizable = true ∧ realDealPimpl.cache.isSome = true ∧
    realDealPimpl.isCached option1Input = false ∧
    (((realDealPimpl.run option1Input).2).runCount = realDealPimpl.runCount + 1 ∧
     ((realDealPimpl.run option1Input).2).isCached option1Input = true ∧
     (((realDealPimpl.run option1Input).2).run option1Input).1
       = (realDealPimpl.run option1Input).1 ∧
     ((((realDealPimpl.run option1Input).2).run option1Input).2).runCount
       = realDealPimpl.runCount + 1) :=
  ⟨rfl, rfl, rfl,
   C1_memoization_runs_base_once realDealPimpl option1Input rfl rfl rfl⟩

/-! ## Recursive locking (C8)

`ModulePIMPL::lock` is not under `src/`; spec section 4.6 step 3 and
invariant M2 describe it, and the unit test
`src/tests/pluginplay/detail_/module_pimpl.cpp:126-147` pins that after
`mod.lock()` the bound submodule is locked too.  A module is modelled by
its locked flag and the modules bound in its submodule slots. -/

/-- Modelled from the spec: the lock-relevant state of a module - the
locked flag and the bound submodules. -/
inductive ModuleTree : Type where
  | mk : Bool → List ModuleTree → ModuleTree

/-- The locked flag of the module. -/
def ModuleTree.locked : ModuleTree → Bool
  | .mk l _ => l

/-- The modules bound in the submodule slots. -/
def ModuleTree.submods : ModuleTree → List ModuleTree
  | .mk _ s => s

/-- Modelled from the spec: `lock()` - set the locked flag and
recursively lock every bound submodule (spec M2,
`module_pimpl.cpp:139-146`). -/
def ModuleTree.lockAll : ModuleTree → ModuleTree
  | .mk _ subs => .mk true (subs.attach.map fun s => ModuleTree.lockAll s.1)
decreasing_by
  have := List.sizeOf_lt_of_mem s.2
  simp only [ModuleTree.mk.sizeOf_spec]
  omega

/-- Whether the module and, recursively, every bound submodule are
locked. -/
def ModuleTree.allLocked : ModuleTree → Bool
  | .mk l subs => l && subs.attach.all fun s => ModuleTree.allLocked s.1
decreasing_by
  have := List.sizeOf_lt_of_mem s.2
  simp only [ModuleTree.mk.sizeOf_spec]
  omega

/-- After `lock()` the whole bound submodule tree reports locked. -/
theorem lockAll_allLocked : ∀ (m : ModuleTree), m.lockAll.allLocked = true
  | .mk l subs => by
    simp only [ModuleTree.lockAll, ModuleTree.allLocked, Bool.true_and,
      List.all_eq_true]
    rintro ⟨x, hx⟩ -
    obtain ⟨⟨y, hy⟩, -, rfl⟩ := List.mem_map.mp hx
    exact lockAll_allLocked y
termination_by m => sizeOf m
decreasing_by
  have := List.sizeOf_lt_of_mem hy
  simp only [ModuleTree.mk.sizeOf_spec]
  omega

/-- Claim C8: after `m.lock()` the module reports locked and so does
every module bound in one of its submodule slots (itself with its whole
bound subtree, as the recursive locking propagates). -/
theorem C8_lock_locks_submodules (m : ModuleTree) :
    m.lockAll.locked = true ∧
    (m.lockAll.submods).all ModuleTree.allLocked = true := by
  constructor
  · cases m with
    | mk l subs => simp only [ModuleTree.lockAll, ModuleTree.locked]
  · cases m with
    | mk l subs =>
      have h := lockAll_allLocked (ModuleTree.mk l subs)
      simp only [ModuleTree.lockAll, ModuleTree.allLocked, Bool.true_and] at h
      simp only [ModuleTree.lockAll, ModuleTree.submods]
      rw [List.all_eq_true]
      intro x hx
      exact List.all_eq_true.mp h ⟨x, hx⟩ (List.mem_attach _ _)

/-! ## Memoizability of the bound submodule tree (C10)

`ModulePIMPL::is_memoizable` and `Module::change_submod` are not under
`src/`; the behaviour is pinned by the unit test
`src/tests/pluginplay/detail_/module_pimpl.cpp:340-371`: a module is
memoizable when its own memoization flag is on and every bound submodule
is itself memoizable, and rebinding the offending slot restores
memoizability. -/

/-- Modelled from the spec: the memoization-relevant state of a module -
its own memoization flag and the keyed submodule slots with the modules
bound in them. -/
inductive MemoTree : Type where
  | mk : Bool → List (String × MemoTree) → MemoTree

/-- Modelled from the spec: `is_memoizable()` - the module's own
memoization flag and, recursively, the memoizability of every bound
submodule (`module_pimpl.cpp:354-370`). -/
def MemoTree.isMemoizable : MemoTree → Bool
  | .mk b subs => b && subs.attach.all fun p => MemoTree.isMemoizable p.1.2
decreasing_by
  have h1 := List.sizeOf_lt_of_mem p.2
  have h2 : sizeOf p.1.2 < sizeOf p.1 := by
    obtain ⟨q, hq⟩ := p
    obtain ⟨k, t⟩ := q
    simp only [Prod.mk.sizeOf_spec]
    omega
  simp only [MemoTree.mk.sizeOf_spec]
  omega

/-- `change_submod(key, sub)`: rebind the named submodule slot. -/
def MemoTree.changeSubmod (m : MemoTree) (key : String) (sub : MemoTree) : MemoTree :=
  match m with
  | .mk b subs => .mk b (subs.map fun p => if p.1 = key then (p.1, sub) else p)

/-- Claim C10: a module whose submodule slot holds a non-memoizable
module is itself not memoizable, and once that slot is rebound to a
memoizable module - its own flag being on and every other slot holding a
memoizable module - the module is memoizable again. -/
theorem C10_memoizability_propagates (b : Bool) (subs : List (String × MemoTree))
    (key : String) (s s' : MemoTree)
    (hmem : (key, s) ∈ subs) (hs : s.isMemoizable = false) :
    (MemoTree.mk b subs).isMemoizable = false ∧
    (s'.isMemoizable = true → b = true →
      (∀ p ∈ subs, p.1 ≠ key → p.2.isMemoizable = true) →
      ((MemoTree.mk b subs).changeSubmod key s').isMemoizable = true) := by
  constructor
  · simp only [MemoTree.isMemoizable]
    cases hall : subs.attach.all fun p => MemoTree.isMemoizable p.1.2 with
    | false => simp
    | true =>
      exfalso
      have := List.all_eq_true.mp hall ⟨(key, s), hmem⟩ (List.mem_attach _ _)
      rw [hs] at this
      exact Bool.false_ne_true this
  · intro hs' hb hrest
    rw [MemoTree.changeSubmod]
    simp only [MemoTree.isMemoizable, hb, Bool.true_and, List.all_eq_true]
    rintro ⟨x, hx⟩ -
    obtain ⟨p, hp, rfl⟩ := List.mem_map.mp hx
    by_cases hpk : p.1 = key
    · simp only [hpk, if_true]
      exact hs'
    · simp only [hpk, if_false]
      exact hrest p hp hpk

/-- The submodule slots of the `is_memoizable` unit test: one slot
`"Submodule 1"` holding a module with memoization turned off. -/
def offSlot : List (String × MemoTree) :=
  [("Submodule 1", MemoTree.mk false [])]

/-- Claim C10 (witness): evaluated on a module with its own flag on and
one submodule slot, first bound to a non-memoizable module and then
rebound to a memoizable one. -/
theorem C10_memoizability_propagates_witness :
    (MemoTree.mk true offSlot).isMemoizable = false ∧
    ((MemoTree.mk true offSlot).changeSubmod "Submodule 1"
      (MemoTree.mk true [])).isMemoizable = true := by
  have hoff : (MemoTree.mk false ([] : List (String × MemoTree))).isMemoizable
      = false := by
    simp [MemoTree.isMemoizable]
  have hon : (MemoTree.mk true ([] : List (String × MemoTree))).isMemoizable
      = true := by
    simp [MemoTree.isMemoizable]
  have hrest : ∀ p ∈ offSlot, p.1 ≠ "Submodule 1" → p.2.isMemoizable = true := by
    intro p hp hne
    rw [offSlot, List.mem_singleton] at hp
    subst hp
    simp at hne
  have h := C10_memoizability_propagates true offSlot "Submodule 1"
    (MemoTree.mk false []) (MemoTree.mk true [])
    (List.mem_singleton.mpr rfl) hoff
  exact ⟨h.1, h.2 hon rfl hrest⟩

end PluginPlay
